import Mathlib

/-
Verification of the Reportcard school-management system.

Shallow embedding of the repository's core logic:
  * Grading    — Grade.calculate_letter_grade and Grade.save
                 (src/schools/models.py, src/apps/models.py; the two copies are textually identical)
  * Mid        — MultiTenantMiddleware.process_request
                 (src/schools/middleware.py, src/apps/middleware.py; identical copies)
  * Sig        — ChangeLog signal handlers (src/apps/signals.py)
  * Pull       — the pull-sync endpoint sync_view (src/apps/views.py)
  * Push       — the push-sync endpoint push_sync_view (src/apps/views.py)

Python scalars are modelled as: scores as rationals, timestamps as integers
(any linear timeline), ids as naturals, JSON string fields as Lean strings.
External library calls (datetime.fromisoformat) are abstracted as an explicit
parse-function parameter.  Payload data is well-typed by construction, so
serializer type-validation always succeeds in the model.
-/

namespace Grading

/-- One entry of the GradingScale.ranges JSON list.  Each key of the dict
may be absent, mirroring grade_range.get with defaults in the Python. -/
structure GradeRange where
  min_score : Option ℚ
  max_score : Option ℚ
  grade : Option String
deriving Repr, DecidableEq

/-- A GradingScale row: name and scale_type are irrelevant to the lookup,
only the school scoping and the ranges list matter. -/
structure GradingScale where
  id : Nat
  school : Nat
  ranges : List GradeRange
deriving Repr, DecidableEq

/-- A Grade row, with the fields read or written by calculate_letter_grade
and save.  score is nullable (null=True); letter_grade is a possibly empty
string (blank=True). -/
structure GradeRec where
  student : Nat
  subject : Nat
  grading_period : Nat
  score : Option ℚ
  letter_grade : String
  is_override : Bool
  school : Nat
deriving Repr, DecidableEq

/-- GradingScale.objects.filter(school=self.school).first(): the first
grading scale of the school in table order. -/
def firstScaleFor (scales : List GradingScale) (school : Nat) : Option GradingScale :=
  scales.find? (fun gs => gs.school == school)

/-- The sort key used by calculate_letter_grade: x.get with default 0. -/
def rangeKey (r : GradeRange) : ℚ :=
  r.min_score.getD 0

/-- Stable descending insertion step: place r before the first element whose
key is not larger, so that among equal keys r (the originally earlier
element) comes first. -/
def insertRange (r : GradeRange) : List GradeRange → List GradeRange
  | [] => [r]
  | x :: xs => if rangeKey x ≤ rangeKey r then r :: x :: xs else x :: insertRange r xs

/-- sorted(ranges, key=min_score default 0, reverse=True): the stable sort
by the key, descending.  Written as a structurally recursive insertion sort;
sortRangesDesc_eq_mergeSort below proves it equal to List.mergeSort with the
descending comparison, so it is the standard stable sort. -/
def sortRangesDesc : List GradeRange → List GradeRange
  | [] => []
  | r :: rs => insertRange r (sortRangesDesc rs)

/-- The for-loop body of calculate_letter_grade: return the grade of the
first range whose bounds (defaults 0 and 100) contain the score, else None. -/
def scanRanges (score : ℚ) : List GradeRange → Option String
  | [] => none
  | r :: rs =>
      if r.min_score.getD 0 ≤ score ∧ score ≤ r.max_score.getD 100 then
        some (r.grade.getD "")
      else
        scanRanges score rs

/-- Grade.calculate_letter_grade: None when score is None, when the school
has no grading scale, or when the ranges list is empty; otherwise scan the
ranges sorted by min_score descending. -/
def calculate_letter_grade (scales : List GradingScale) (g : GradeRec) : Option String :=
  match g.score with
  | none => none
  | some sc =>
      match firstScaleFor scales g.school with
      | none => none
      | some gs =>
          if gs.ranges = [] then none
          else scanRanges sc (sortRangesDesc gs.ranges)

/-- Grade.save: auto-derive letter_grade only when not overridden, the score
is present and letter_grade is empty, and only store a truthy (non-empty)
calculated value. -/
def save (scales : List GradingScale) (g : GradeRec) : GradeRec :=
  if ¬ g.is_override ∧ g.score.isSome ∧ g.letter_grade = "" then
    match calculate_letter_grade scales g with
    | some c => if c ≠ "" then { g with letter_grade := c } else g
    | none => g
  else
    g

end Grading

namespace Grading

/-- The boolean descending comparison on range keys. -/
def rangeLE (a b : GradeRange) : Bool :=
  decide (rangeKey b ≤ rangeKey a)

theorem insertRange_append (r : GradeRange) (l₁ l₂ : List GradeRange)
    (h₁ : ∀ b ∈ l₁, ¬ rangeKey b ≤ rangeKey r)
    (h₂ : ∀ x, l₂.head? = some x → rangeKey x ≤ rangeKey r) :
    insertRange r (l₁ ++ l₂) = l₁ ++ r :: l₂ := by
  induction l₁ with
  | nil =>
      cases l₂ with
      | nil => rfl
      | cons x xs =>
          have hx : rangeKey x ≤ rangeKey r := h₂ x rfl
          simp [insertRange, hx]
  | cons b l₁ ih =>
      have hb : ¬ rangeKey b ≤ rangeKey r := h₁ b (List.mem_cons_self b l₁)
      have hstep : insertRange r ((b :: l₁) ++ l₂) = b :: insertRange r (l₁ ++ l₂) := by
        simp [insertRange, hb]
      rw [hstep, ih (fun c hc => h₁ c (List.mem_cons_of_mem b hc))]
      rfl

/-- The insertion sort agrees with the standard stable mergeSort under the
descending comparison: sortRangesDesc really is sorted(..., reverse=True). -/
theorem sortRangesDesc_eq_mergeSort (rs : List GradeRange) :
    sortRangesDesc rs = rs.mergeSort rangeLE := by
  have htrans : ∀ a b c : GradeRange, rangeLE a b → rangeLE b c → rangeLE a c := by
    intro a b c hab hbc
    simp only [rangeLE, decide_eq_true_eq] at *
    exact le_trans hbc hab
  have htotal : ∀ a b : GradeRange, rangeLE a b || rangeLE b a := by
    intro a b
    simp only [rangeLE, Bool.or_eq_true, decide_eq_true_eq]
    exact le_total (rangeKey b) (rangeKey a)
  induction rs with
  | nil => simp [sortRangesDesc]
  | cons a l ih =>
      obtain ⟨l₁, l₂, hcons, hrest, hl₁⟩ := List.mergeSort_cons htrans htotal a l
      have hsorted := List.sorted_mergeSort htrans htotal (a :: l)
      rw [hcons] at hsorted
      have hpair := (List.pairwise_append.mp hsorted).2.1
      have hhead : ∀ x, l₂.head? = some x → rangeKey x ≤ rangeKey a := by
        intro x hx
        cases l₂ with
        | nil => simp at hx
        | cons y ys =>
            simp only [List.head?_cons, Option.some.injEq] at hx
            subst hx
            have hy := (List.pairwise_cons.mp hpair).1 y (List.mem_cons_self y ys)
            simp only [rangeLE, decide_eq_true_eq] at hy
            exact hy
      have hl₁n : ∀ b ∈ l₁, ¬ rangeKey b ≤ rangeKey a := by
        intro b hb
        have := hl₁ b hb
        simp only [rangeLE, Bool.not_eq_true', decide_eq_false_iff_not] at this
        exact this
      calc sortRangesDesc (a :: l)
          = insertRange a (sortRangesDesc l) := rfl
        _ = insertRange a (l₁ ++ l₂) := by rw [ih, hrest]
        _ = l₁ ++ a :: l₂ := insertRange_append a l₁ l₂ hl₁n hhead
        _ = (a :: l).mergeSort rangeLE := hcons.symm

/-- The loop over the sorted ranges is the first-match search. -/
theorem scanRanges_eq_find (score : ℚ) (rs : List GradeRange) :
    scanRanges score rs =
      (rs.find? (fun r =>
        decide (r.min_score.getD 0 ≤ score ∧ score ≤ r.max_score.getD 100))).map
        (fun r => r.grade.getD "") := by
  induction rs with
  | nil => rfl
  | cons r rs ih =>
      by_cases h : r.min_score.getD 0 ≤ score ∧ score ≤ r.max_score.getD 100
      · simp [scanRanges, List.find?, h]
      · simp [scanRanges, List.find?, h, ih]

/-- C2: for a Grade with a score and a school owning a grading scale with a
non-empty ranges list, calculate_letter_grade sorts the ranges by min_score
descending (missing min_score read as 0) and returns the grade value of the
first range with min_score ≤ score ≤ max_score (missing max_score read as
100, missing grade read as the empty string); it returns None when the score
is None, when the school has no grading scale, when the ranges list is
empty, or when no range contains the score (the find? below is none). -/
theorem C2_calculate_letter_grade_spec (scales : List GradingScale) (g : GradeRec) :
    (g.score = none → calculate_letter_grade scales g = none) ∧
    (firstScaleFor scales g.school = none → calculate_letter_grade scales g = none) ∧
    (∀ gs, firstScaleFor scales g.school = some gs → gs.ranges = [] →
      calculate_letter_grade scales g = none) ∧
    (∀ sc gs, g.score = some sc → firstScaleFor scales g.school = some gs →
      gs.ranges ≠ [] →
      calculate_letter_grade scales g =
        ((sortRangesDesc gs.ranges).find? (fun r =>
          decide (r.min_score.getD 0 ≤ sc ∧ sc ≤ r.max_score.getD 100))).map
          (fun r => r.grade.getD "")) := by
  refine ⟨?_, ?_, ?_, ?_⟩
  · intro h
    simp [calculate_letter_grade, h]
  · intro h
    cases hs : g.score with
    | none => simp [calculate_letter_grade, hs]
    | some sc => simp [calculate_letter_grade, hs, h]
  · intro gs hgs hr
    cases hs : g.score with
    | none => simp [calculate_letter_grade, hs]
    | some sc => simp [calculate_letter_grade, hs, hgs, hr]
  · intro sc gs hsc hgs hr
    simp [calculate_letter_grade, hsc, hgs, hr, scanRanges_eq_find]

/-- A concrete grading scale, listed out of order to exercise the sort. -/
def wScale : GradingScale :=
  ⟨1, 1, [⟨some 0, some 79, some "F"⟩, ⟨some 90, some 100, some "A"⟩,
          ⟨some 80, some 89, some "B"⟩]⟩

/-- A concrete grade with score 85 in school 1, not overridden, letter unset. -/
def wGrade : GradeRec :=
  ⟨1, 1, 1, some 85, "", false, 1⟩

/-- Witness for C2: at score 85 against wScale the branch hypotheses hold and
the first matching sorted range is the B range. -/
theorem C2_witness :
    calculate_letter_grade [wScale] wGrade =
      ((sortRangesDesc wScale.ranges).find? (fun r =>
        decide (r.min_score.getD 0 ≤ (85 : ℚ) ∧ (85 : ℚ) ≤ r.max_score.getD 100))).map
        (fun r => r.grade.getD "") ∧
    calculate_letter_grade [wScale] wGrade = some "B" :=
  ⟨(C2_calculate_letter_grade_spec [wScale] wGrade).2.2.2 85 wScale rfl rfl (by decide),
   by decide⟩

/-- C7: Grade.save stores a derived letter grade only when is_override is
false, the score is present and letter_grade is empty; whenever these three
do not all hold, or the derived value is None, the record (in particular
letter_grade) is left exactly as it was; and any change to letter_grade
comes from a non-empty value of calculate_letter_grade under those three
conditions. -/
theorem C7_grade_save_letter_frame (scales : List GradingScale) (g : GradeRec) :
    (¬ (g.is_override = false ∧ g.score.isSome = true ∧ g.letter_grade = "") →
      save scales g = g) ∧
    (calculate_letter_grade scales g = none → save scales g = g) ∧
    ((save scales g).letter_grade ≠ g.letter_grade →
      g.is_override = false ∧ g.score.isSome = true ∧ g.letter_grade = "" ∧
      calculate_letter_grade scales g = some ((save scales g).letter_grade) ∧
      (save scales g).letter_grade ≠ "") ∧
    (save scales g).student = g.student ∧
    (save scales g).subject = g.subject ∧
    (save scales g).grading_period = g.grading_period ∧
    (save scales g).score = g.score ∧
    (save scales g).is_override = g.is_override ∧
    (save scales g).school = g.school := by
  by_cases hc : g.is_override = false ∧ g.score.isSome = true ∧ g.letter_grade = ""
  · cases hcalc : calculate_letter_grade scales g with
    | none =>
        have hsave : save scales g = g := by
          simp [save, hc.1, hc.2.1, hc.2.2, hcalc]
        refine ⟨fun _ => hsave, fun _ => hsave, fun h => absurd (by rw [hsave]) h,
          ?_, ?_, ?_, ?_, ?_, ?_⟩ <;> rw [hsave]
    | some c =>
        by_cases hne : c = ""
        · have hsave : save scales g = g := by
            simp [save, hc.1, hc.2.1, hc.2.2, hcalc, hne]
          refine ⟨fun _ => hsave, fun _ => hsave, fun h => absurd (by rw [hsave]) h,
            ?_, ?_, ?_, ?_, ?_, ?_⟩ <;> rw [hsave]
        · have hsave : save scales g = { g with letter_grade := c } := by
            simp [save, hc.1, hc.2.1, hc.2.2, hcalc, hne]
          refine ⟨fun h => absurd hc h, ?_, ?_, ?_, ?_, ?_, ?_, ?_, ?_⟩
          · intro hnone
            exact absurd hnone (Option.some_ne_none c)
          · intro _
            refine ⟨hc.1, hc.2.1, hc.2.2, ?_, ?_⟩
            · rw [hsave]
            · rw [hsave]
              exact hne
          all_goals rw [hsave]
  · have hsave : save scales g = g := by
      simp only [save, Bool.not_eq_true]
      rw [if_neg hc]
    refine ⟨fun _ => hsave, fun _ => hsave, fun h => absurd (by rw [hsave]) h,
      ?_, ?_, ?_, ?_, ?_, ?_⟩ <;> rw [hsave]

/-- A concrete overridden grade: score present but is_override set. -/
def wGradeOv : GradeRec :=
  ⟨2, 1, 1, some 40, "A", true, 1⟩

/-- Witness for C7: an overridden grade is left exactly unchanged by save,
even though its score (40) no longer matches its stored letter grade. -/
theorem C7_witness : save [wScale] wGradeOv = wGradeOv :=
  (C7_grade_save_letter_frame [wScale] wGradeOv).1 (by decide)

end Grading

namespace Mid

/-- A School row as the middleware sees it: the primary key and a name.
Django assigns positive auto-increment ids, so ids here are positive. -/
structure School where
  id : Nat
  name : String
deriving Repr, DecidableEq

/-- The request state read by MultiTenantMiddleware.process_request: the
School-ID header and the session school_id, each already parsed to the id
it carries, none when absent. -/
structure Request where
  headerSchoolId : Option Nat
  sessionSchoolId : Option Nat
deriving Repr, DecidableEq

/-- School.objects.get(id=i), with DoesNotExist mapped to None as the
middleware's except branch does. -/
def getSchool (db : List School) (i : Nat) : Option School :=
  db.find? (fun s => s.id == i)

/-- MultiTenantMiddleware.process_request: the value stored in
request.school.  Header first; only when the header is absent is the
session consulted; None whenever the chosen id matches no School. -/
def process_request (db : List School) (req : Request) : Option School :=
  match req.headerSchoolId with
  | some h => getSchool db h
  | none =>
      match req.sessionSchoolId with
      | some s => getSchool db s
      | none => none

/-- C6: after the middleware runs the request always carries a school
value: the School matching the header id when the header is present (None
when no School matches, the session never consulted), else the School
matching the session id, else None. -/
theorem C6_process_request_spec (db : List School) (req : Request) :
    (∀ h, req.headerSchoolId = some h →
      process_request db req = getSchool db h) ∧
    (req.headerSchoolId = none → ∀ s, req.sessionSchoolId = some s →
      process_request db req = getSchool db s) ∧
    (req.headerSchoolId = none → req.sessionSchoolId = none →
      process_request db req = none) := by
  refine ⟨?_, ?_, ?_⟩
  · intro h hh
    simp [process_request, hh]
  · intro hh s hs
    simp [process_request, hh, hs]
  · intro hh hs
    simp [process_request, hh, hs]

/-- Witness for C6: with the header naming school 2, the middleware resolves
school 2 even though the session names school 1. -/
theorem C6_witness :
    process_request [⟨1, "North"⟩, ⟨2, "South"⟩] ⟨some 2, some 1⟩ =
      getSchool [⟨1, "North"⟩, ⟨2, "South"⟩] 2 ∧
    process_request [⟨1, "North"⟩, ⟨2, "South"⟩] ⟨some 2, some 1⟩ =
      some ⟨2, "South"⟩ :=
  ⟨(C6_process_request_spec [⟨1, "North"⟩, ⟨2, "South"⟩] ⟨some 2, some 1⟩).1 2 rfl,
   by decide⟩

end Mid

namespace Sig

/-- The part of a model instance read by the ChangeLog signal handlers:
its class name, its id (getattr default for a missing id), its school id
(None for School itself, whose getattr returns None), and the
model_to_dict field snapshot.  snapshotOk is false when model_to_dict
raises, in which case the handler stores an empty dict. -/
structure Instance where
  modelName : String
  id : Option Nat
  school : Option Nat
  snapshot : List (String × String)
  snapshotOk : Bool
deriving Repr, DecidableEq

/-- A ChangeLog row as built by _create_changelog_entry. -/
structure ChangeLogEntry where
  model : String
  object_id : String
  action : String
  data : List (String × String)
  school : Option Nat
deriving Repr, DecidableEq

/-- The TRACKED_MODELS list of src/apps/signals.py, by class name. -/
def trackedModels : List String :=
  ["School", "User", "ClassSection", "Subject", "GradingScale",
   "GradingPeriod", "StudentEnrollment", "Grade", "Attendance",
   "UserApplication"]

/-- str(getattr(instance, 'id', '')): the id as a string, or the empty
string when absent. -/
def objectIdString (inst : Instance) : String :=
  match inst.id with
  | some n => toString n
  | none => ""

/-- _create_changelog_entry: build the row (empty data when model_to_dict
raised) and attempt the write; a failed write (writeOk false, the except
branch) is swallowed and simply produces no row.  Totality of this
function is the model of "no exception escapes the handler". -/
def create_changelog_entry (writeOk : Bool) (inst : Instance) (action : String) :
    Option ChangeLogEntry :=
  let data := if inst.snapshotOk then inst.snapshot else []
  let entry : ChangeLogEntry :=
    ⟨inst.modelName, objectIdString inst, action, data, inst.school⟩
  if writeOk then some entry else none

/-- handle_post_save: ignore untracked senders, else log 'create' for a
newly created row and 'update' otherwise. -/
def handle_post_save (writeOk : Bool) (inst : Instance) (created : Bool) :
    Option ChangeLogEntry :=
  if inst.modelName ∈ trackedModels then
    create_changelog_entry writeOk inst (if created then "create" else "update")
  else
    none

/-- handle_post_delete: ignore untracked senders, else log 'delete'. -/
def handle_post_delete (writeOk : Bool) (inst : Instance) :
    Option ChangeLogEntry :=
  if inst.modelName ∈ trackedModels then
    create_changelog_entry writeOk inst "delete"
  else
    none

/-- C8: for a tracked model instance, a successful post-save write logs one
entry with action 'create' when the row was newly created and 'update'
otherwise, and post-delete logs action 'delete'; every entry records the
class name, the id as a string, the field snapshot and the instance's
school; a failing ChangeLog write is swallowed (the handler still returns,
yielding no entry), and untracked senders are ignored. -/
theorem C8_changelog_signals_spec (inst : Instance) (created : Bool) :
    (inst.modelName ∈ trackedModels →
      handle_post_save true inst created =
        some ⟨inst.modelName, objectIdString inst,
              if created then "create" else "update",
              if inst.snapshotOk then inst.snapshot else [], inst.school⟩ ∧
      handle_post_delete true inst =
        some ⟨inst.modelName, objectIdString inst, "delete",
              if inst.snapshotOk then inst.snapshot else [], inst.school⟩ ∧
      handle_post_save false inst created = none ∧
      handle_post_delete false inst = none) ∧
    (inst.modelName ∉ trackedModels →
      handle_post_save true inst created = none ∧
      handle_post_delete true inst = none) := by
  constructor
  · intro htr
    refine ⟨?_, ?_, ?_, ?_⟩ <;>
      simp [handle_post_save, handle_post_delete, create_changelog_entry, htr]
  · intro htr
    constructor <;>
      simp [handle_post_save, handle_post_delete, htr]

/-- A concrete tracked instance: a Grade row with id 7 in school 3. -/
def wInst : Instance :=
  ⟨"Grade", some 7, some 3, [("score", "85")], true⟩

/-- Witness for C8: the post-save of a newly created Grade logs a 'create'
entry carrying the class name, stringified id, snapshot and school. -/
theorem C8_witness :
    handle_post_save true wInst true =
      some ⟨"Grade", "7", "create", [("score", "85")], some 3⟩ := by
  have h := (C8_changelog_signals_spec wInst true).1 (by decide)
  simpa [wInst, objectIdString] using h.1

end Sig

namespace Pull

/-- The nine models served by the pull-sync endpoint sync_view, in the
order of its models list. -/
inductive MName
  | school | user | classsection | subject | gradingscale
  | gradingperiod | studentenrollment | grade | attendance
deriving Repr, DecidableEq

/-- The models list of sync_view, in source order. -/
def modelsList : List MName :=
  [.school, .user, .classsection, .subject, .gradingscale,
   .gradingperiod, .studentenrollment, .grade, .attendance]

/-- hasattr(model, 'school'): every model except School carries a school
foreign key (User's is nullable but the attribute exists; no reverse
accessor on School is named school). -/
def hasSchoolField : MName → Bool
  | .school => false
  | _ => true

/-- A row of any synced table: id, school foreign key (None for School
rows and for users without a school) and the updated_at timestamp. -/
structure Row where
  id : Nat
  school : Option Nat
  updated_at : Int
deriving Repr, DecidableEq

/-- The database: a table of rows per model.  School existence checks read
the School table. -/
structure DB where
  rows : MName → List Row

/-- The request state read by sync_view: the two query parameters, the
middleware-resolved request.school, and the requesting user's role. -/
structure Request where
  last_sync : Option String
  school_id : Option Nat
  requestSchool : Option Nat
  userRole : String
deriving Repr, DecidableEq

/-- The two response shapes of sync_view: HTTP 400 with an error message,
or HTTP 200 with the per-model data lists. -/
inductive SyncResponse
  | badRequest (msg : String)
  | ok (data : List (MName × List Row))
deriving Repr, DecidableEq

/-- Whether the response is the HTTP 400 shape. -/
def isBadRequest : SyncResponse → Bool
  | .badRequest _ => true
  | .ok _ => false

/-- School-context resolution in sync_view: an explicit school_id must name
an existing School (else 400, the error branch); otherwise the
middleware-resolved request.school (possibly None) is used. -/
def resolveContext (db : DB) (req : Request) : Except Unit (Option Nat) :=
  match req.school_id with
  | some sid =>
      match (db.rows .school).find? (fun r => r.id == sid) with
      | some sch => .ok (some sch.id)
      | none => .error ()
  | none => .ok req.requestSchool

/-- The per-model queryset of sync_view: rows strictly newer than
last_sync, then the role/scoping cascade exactly as in the source -- filter
by school when the model has the attribute and a context exists, else hide
School rows from non-super-admins, else restrict User rows to the context
school (none without a context) for non-super-admins. -/
def filterModel (lastSync : Int) (role : String) (ctx : Option Nat)
    (m : MName) (rows : List Row) : List Row :=
  let qs := rows.filter (fun r => lastSync < r.updated_at)
  if hasSchoolField m = true ∧ ctx.isSome = true then
    qs.filter (fun r => r.school == ctx)
  else if m = .school ∧ role ≠ "super_admin" then
    []
  else if m = .user ∧ role ≠ "super_admin" then
    if ctx.isSome = true then qs.filter (fun r => r.school == ctx) else []
  else
    qs

/-- sync_view: 400 when last_sync is missing (Python falsy, so also the
empty string) or fails to parse, 400 when an explicit school_id names no
School, else 200 with the filtered rows of every model.  parseTs abstracts
datetime.fromisoformat with the Z-suffix replacement. -/
def sync_view (parseTs : String → Option Int) (db : DB) (req : Request) :
    SyncResponse :=
  match req.last_sync with
  | none => .badRequest "last_sync parameter required"
  | some s =>
      if s = "" then .badRequest "last_sync parameter required"
      else
        match parseTs s with
        | none => .badRequest "Invalid last_sync format"
        | some lastSync =>
            match resolveContext db req with
            | .error _ => .badRequest "Invalid school_id"
            | .ok ctx =>
                .ok (modelsList.map (fun m =>
                  (m, filterModel lastSync req.userRole ctx m (db.rows m))))

theorem filterModel_scoped (lastSync : Int) (role : String) (s : Nat)
    (m : MName) (rows : List Row) (hm : hasSchoolField m = true) :
    ∀ r ∈ filterModel lastSync role (some s) m rows, r.school = some s := by
  intro r hr
  unfold filterModel at hr
  rw [if_pos ⟨hm, rfl⟩] at hr
  have := (List.mem_filter.mp hr).2
  simpa using this

theorem filterModel_school_none (lastSync : Int) (role : String)
    (rows : List Row) (hrole : role ≠ "super_admin") :
    filterModel lastSync role none MName.school rows = [] := by
  unfold filterModel
  rw [if_neg (by simp), if_pos ⟨rfl, hrole⟩]

theorem filterModel_user_none (lastSync : Int) (role : String)
    (rows : List Row) (hrole : role ≠ "super_admin") :
    filterModel lastSync role none MName.user rows = [] := by
  unfold filterModel
  rw [if_neg (by simp), if_neg (by simp), if_pos ⟨rfl, hrole⟩]
  simp

/-- C9: sync_view answers HTTP 400 exactly when the last_sync parameter is
missing (Python-falsy, hence also empty, which the parser also rejects),
when its value does not parse, or when a supplied school_id names no
existing School; in every other case it answers HTTP 200 with the
per-model data. -/
theorem C9_sync_view_badRequest (parseTs : String → Option Int) (db : DB)
    (req : Request) (hempty : parseTs "" = none) :
    (isBadRequest (sync_view parseTs db req) = true ↔
      (req.last_sync = none ∨
       (∃ s, req.last_sync = some s ∧ parseTs s = none) ∨
       (∃ sid, req.school_id = some sid ∧
         (db.rows .school).find? (fun r => r.id == sid) = none))) ∧
    (isBadRequest (sync_view parseTs db req) = false →
      ∃ ctx, resolveContext db req = .ok ctx ∧
        ∃ ls, sync_view parseTs db req =
          .ok (modelsList.map (fun m =>
            (m, filterModel ls req.userRole ctx m (db.rows m))))) := by
  have hresolved : ∀ sid sch, req.school_id = some sid →
      (db.rows .school).find? (fun r => r.id == sid) = some sch →
      resolveContext db req = .ok (some sch.id) := by
    intro sid sch hsid hfind
    simp [resolveContext, hsid, hfind]
  cases hlast : req.last_sync with
  | none =>
      have hval : sync_view parseTs db req = .badRequest "last_sync parameter required" := by
        simp [sync_view, hlast]
      rw [hval]
      refine ⟨⟨fun _ => Or.inl rfl, fun _ => rfl⟩, fun hfalse => by cases hfalse⟩
  | some s =>
      by_cases hs : s = ""
      · have hval : sync_view parseTs db req = .badRequest "last_sync parameter required" := by
          simp [sync_view, hlast, hs]
        rw [hval]
        exact ⟨⟨fun _ => Or.inr (Or.inl ⟨s, rfl, hs ▸ hempty⟩), fun _ => rfl⟩,
          fun hfalse => by cases hfalse⟩
      · cases hp : parseTs s with
        | none =>
            have hval : sync_view parseTs db req = .badRequest "Invalid last_sync format" := by
              simp [sync_view, hlast, hs, hp]
            rw [hval]
            exact ⟨⟨fun _ => Or.inr (Or.inl ⟨s, rfl, hp⟩), fun _ => rfl⟩,
              fun hfalse => by cases hfalse⟩
        | some ls =>
            cases hctx : resolveContext db req with
            | error u =>
                have hval : sync_view parseTs db req = .badRequest "Invalid school_id" := by
                  simp [sync_view, hlast, hs, hp, hctx]
                rw [hval]
                refine ⟨⟨fun _ => Or.inr (Or.inr ?_), fun _ => rfl⟩,
                  fun hfalse => by cases hfalse⟩
                cases hsid : req.school_id with
                | none =>
                    exfalso
                    simp [resolveContext, hsid] at hctx
                | some sid =>
                    cases hfind : (db.rows .school).find? (fun r => r.id == sid) with
                    | none => exact ⟨sid, rfl, hfind⟩
                    | some sch =>
                        exfalso
                        rw [hresolved sid sch hsid hfind] at hctx
                        cases hctx
            | ok ctx =>
                have hval : sync_view parseTs db req =
                    .ok (modelsList.map (fun m =>
                      (m, filterModel ls req.userRole ctx m (db.rows m)))) := by
                  simp [sync_view, hlast, hs, hp, hctx]
                rw [hval]
                constructor
                · constructor
                  · intro habs
                    cases habs
                  · intro hrhs
                    exfalso
                    rcases hrhs with h | ⟨t, ht, hpn⟩ | ⟨sid, hsid, hfind⟩
                    · cases h
                    · cases ht
                      rw [hp] at hpn
                      cases hpn
                    · simp [resolveContext, hsid, hfind] at hctx
                · intro _
                  exact ⟨ctx, rfl, ls, rfl⟩

/-- A concrete parse function for witnesses: only the one good string
parses. -/
def wParse : String → Option Int :=
  fun s => if s = "2024-01-01T00:00:00" then some 0 else none

/-- A two-school database whose only fresh rows are two grades, one per
school. -/
def wDB : DB :=
  ⟨fun m =>
    match m with
    | .school => [⟨1, none, 5⟩, ⟨2, none, 5⟩]
    | .grade => [⟨1, some 1, 10⟩, ⟨2, some 2, 10⟩]
    | _ => []⟩

/-- A teacher request missing the last_sync parameter. -/
def wReqMissing : Request :=
  ⟨none, none, none, "teacher"⟩

/-- Witness for C9: the request without last_sync is answered with HTTP
400. -/
theorem C9_witness : isBadRequest (sync_view wParse wDB wReqMissing) = true :=
  ((C9_sync_view_badRequest wParse wDB wReqMissing rfl).1).mpr (Or.inl rfl)

/-- C3: for a non-super-admin request that sync_view answers with data,
every returned row of a model carrying the school attribute (all eight
school-scoped models, User included) belongs to the resolved school
context, and when no context resolves the School and User lists are
empty. -/
theorem C3_sync_school_scoping (parseTs : String → Option Int) (db : DB)
    (req : Request) (data : List (MName × List Row))
    (hrole : req.userRole ≠ "super_admin")
    (hok : sync_view parseTs db req = .ok data) :
    (∀ s, resolveContext db req = .ok (some s) →
      ∀ m rows, (m, rows) ∈ data → hasSchoolField m = true →
        ∀ r ∈ rows, r.school = some s) ∧
    (resolveContext db req = .ok none →
      ∀ rows, ((MName.school, rows) ∈ data → rows = []) ∧
              ((MName.user, rows) ∈ data → rows = [])) := by
  cases hlast : req.last_sync with
  | none => simp [sync_view, hlast] at hok
  | some s =>
      by_cases hs : s = ""
      · simp [sync_view, hlast, hs] at hok
      · cases hp : parseTs s with
        | none => simp [sync_view, hlast, hs, hp] at hok
        | some ls =>
            cases hctx : resolveContext db req with
            | error u => simp [sync_view, hlast, hs, hp, hctx] at hok
            | ok ctx =>
                have hval : sync_view parseTs db req =
                    .ok (modelsList.map (fun m =>
                      (m, filterModel ls req.userRole ctx m (db.rows m)))) := by
                  simp [sync_view, hlast, hs, hp, hctx]
                have hok2 := hval.symm.trans hok
                cases hok2
                constructor
                · intro sch hres m rows hmem hm r hr
                  have hctxs : ctx = some sch := by
                    injection hres
                  subst hctxs
                  obtain ⟨m2, hm2, heq⟩ := List.mem_map.mp hmem
                  have h1 : m2 = m := congrArg Prod.fst heq
                  subst h1
                  have h2 : rows = filterModel ls req.userRole (some sch) m2 (db.rows m2) :=
                    (congrArg Prod.snd heq).symm
                  subst h2
                  exact filterModel_scoped ls req.userRole sch m2 (db.rows m2) hm r hr
                · intro hres rows
                  have hctxn : ctx = none := by
                    injection hres
                  subst hctxn
                  constructor
                  · intro hmem
                    obtain ⟨m2, hm2, heq⟩ := List.mem_map.mp hmem
                    have h1 : m2 = MName.school := congrArg Prod.fst heq
                    subst h1
                    have h2 : rows = filterModel ls req.userRole none MName.school (db.rows .school) :=
                      (congrArg Prod.snd heq).symm
                    rw [h2]
                    exact filterModel_school_none ls req.userRole (db.rows .school) hrole
                  · intro hmem
                    obtain ⟨m2, hm2, heq⟩ := List.mem_map.mp hmem
                    have h1 : m2 = MName.user := congrArg Prod.fst heq
                    subst h1
                    have h2 : rows = filterModel ls req.userRole none MName.user (db.rows .user) :=
                      (congrArg Prod.snd heq).symm
                    rw [h2]
                    exact filterModel_user_none ls req.userRole (db.rows .user) hrole

/-- A teacher request with an explicit valid school_id of school 1. -/
def wReqTeacher : Request :=
  ⟨some "2024-01-01T00:00:00", some 1, none, "teacher"⟩

/-- The data sync_view returns for wReqTeacher on wDB: only school 1's
grade row survives the scoping. -/
def wData : List (MName × List Row) :=
  [(.school, []), (.user, []), (.classsection, []), (.subject, []),
   (.gradingscale, []), (.gradingperiod, []), (.studentenrollment, []),
   (.grade, [⟨1, some 1, 10⟩]), (.attendance, [])]

/-- Witness for C3: on the concrete database the teacher request resolves
school 1 and the returned grade row indeed belongs to school 1. -/
theorem C3_witness : (⟨1, some 1, 10⟩ : Row).school = some 1 :=
  (C3_sync_school_scoping wParse wDB wReqTeacher wData (by decide) (by rfl)).1
    1 (by rfl) MName.grade [⟨1, some 1, 10⟩] (by decide) rfl
    ⟨1, some 1, 10⟩ (List.mem_singleton.mpr rfl)

end Pull

namespace Push

/-- The recognized model keys of push_sync_view's models dict. -/
def modelKeys : List String :=
  ["school", "user", "classsection", "subject", "gradingscale",
   "gradingperiod", "studentenrollment", "grade", "attendance"]

/-- key.rstrip('s').lower(): drop every trailing lowercase s, then
lowercase the rest (written over the character list; Python str.lower is
per-character toLower on these ASCII keys). -/
def modelKeyOf (key : String) : String :=
  ⟨((key.data.reverse.dropWhile (fun c => c = 's')).reverse).map Char.toLower⟩

/-- A server record of one model: primary key, the auto_now updated_at
timestamp (an Option because the view reads it with getattr default None),
and the remaining serialized fields. -/
structure SRecord where
  id : Nat
  updated_at : Option Int
  fields : List (String × String)
deriving Repr, DecidableEq

/-- The data dict of one client entry: optional id, the raw updated_at
string exactly as sent, and the remaining fields. -/
structure EntryData where
  id : Option Nat
  updated_at : Option String
  fields : List (String × String)
deriving Repr, DecidableEq

/-- One element of a model's payload list: entry.get('action') (defaulted
to 'update' when absent) and entry.get('data') (normalized to an empty
dict by the source's `or` fallback). -/
structure SyncEntry where
  action : Option String
  data : EntryData
deriving Repr, DecidableEq

/-- A conflict report; the view only ever emits reason 'server_newer',
echoing the raw incoming updated_at string. -/
structure Conflict where
  id : Nat
  reason : String
  server_updated_at : Int
  incoming_updated_at : Option String
deriving Repr, DecidableEq

/-- What the processing of one entry contributes to the response.
nothing models the silent pass on deleting an absent id. -/
inductive EntryOutcome
  | created (r : SRecord)
  | updated (r : SRecord)
  | deleted (id : Nat)
  | conflict (c : Conflict)
  | error (e : SyncEntry) (msg : String)
  | nothing
deriving Repr, DecidableEq

/-- The incoming timestamp of an update entry, as the view computes it: the
updated_at string must be present, non-empty (Python truthiness) and
parseable; a parse exception is caught and leaves it None. -/
def incomingTs (parseTs : String → Option Int) : Option String → Option Int
  | none => none
  | some s => if s = "" then none else parseTs s

/-- Overwrite an existing serialized field or append a new one. -/
def setField (fs : List (String × String)) (k v : String) :
    List (String × String) :=
  if fs.any (fun p => p.1 == k) then
    fs.map (fun p => if p.1 == k then (k, v) else p)
  else
    fs ++ [(k, v)]

/-- Serializer(obj, data=data, partial=True).save(): merge the client's
fields into the record's fields, left to right. -/
def applyClientData (fs : List (String × String)) :
    List (String × String) → List (String × String)
  | [] => fs
  | (k, v) :: rest => applyClientData (setField fs k v) rest

/-- The next auto-increment primary key. -/
def freshId (rows : List SRecord) : Nat :=
  (rows.map (fun r => r.id)).foldr max 0 + 1

/-- Serializer(data=data).save(): a new record with a fresh id, the
client's fields, and updated_at stamped by auto_now. -/
def mkNew (rows : List SRecord) (now : Int) (d : EntryData) : SRecord :=
  ⟨freshId rows, some now, d.fields⟩

/-- The record produced by the no-conflict partial update: same id, fields
merged, updated_at bumped by auto_now. -/
def mergedRec (now : Int) (obj : SRecord) (d : EntryData) : SRecord :=
  ⟨obj.id, some now, applyClientData obj.fields d.fields⟩

/-- The no-conflict update path: replace the record in the table. -/
def applyUpdate (now : Int) (rows : List SRecord) (i : Nat) (obj : SRecord)
    (d : EntryData) : EntryOutcome × List SRecord :=
  (.updated (mergedRec now obj d),
   rows.map (fun r => if r.id == i then mergedRec now obj d else r))

/-- The body of push_sync_view's inner loop for one entry, returning the
outcome recorded in the response and the model's new table.  A falsy id
(absent or zero) raises the caught ValueError; an update whose id matches
no record falls back to create; the server-wins check fires only when both
timestamps exist and the server's is strictly newer. -/
def processEntry (parseTs : String → Option Int) (now : Int)
    (rows : List SRecord) (e : SyncEntry) : EntryOutcome × List SRecord :=
  let action := e.action.getD "update"
  let d := e.data
  if action = "create" then
    (.created (mkNew rows now d), rows ++ [mkNew rows now d])
  else if action = "update" then
    match d.id with
    | none => (.error e "Missing id for update", rows)
    | some i =>
        if i = 0 then (.error e "Missing id for update", rows)
        else
          match rows.find? (fun r => r.id == i) with
          | none => (.created (mkNew rows now d), rows ++ [mkNew rows now d])
          | some obj =>
              match obj.updated_at, incomingTs parseTs d.updated_at with
              | some st, some it =>
                  if it < st then
                    (.conflict ⟨i, "server_newer", st, d.updated_at⟩, rows)
                  else
                    applyUpdate now rows i obj d
              | some _, none => applyUpdate now rows i obj d
              | none, _ => applyUpdate now rows i obj d
  else if action = "delete" then
    match d.id with
    | none => (.error e "Missing id for delete", rows)
    | some i =>
        if i = 0 then (.error e "Missing id for delete", rows)
        else
          match rows.find? (fun r => r.id == i) with
          | none => (.nothing, rows)
          | some _ => (.deleted i, rows.filter (fun r => !(r.id == i)))
  else
    (.error e "unknown action", rows)

/-- The five per-model result dicts of push_sync_view. -/
structure PushResult where
  created : List (String × List SRecord)
  updated : List (String × List SRecord)
  deleted : List (String × List Nat)
  errors : List (String × List (SyncEntry × String))
  conflicts : List (String × List Conflict)
deriving Repr, DecidableEq

/-- The initial result value with all five dicts empty. -/
def emptyResult : PushResult := ⟨[], [], [], [], []⟩

/-- dict.setdefault(key, []): add an empty bucket unless present. -/
def setdefault {α : Type} (m : List (String × List α)) (k : String) :
    List (String × List α) :=
  if m.any (fun p => p.1 == k) then m else m ++ [(k, [])]

/-- result[kind][key].append(v). -/
def appendAt {α : Type} (m : List (String × List α)) (k : String) (v : α) :
    List (String × List α) :=
  m.map (fun p => if p.1 == k then (p.1, p.2 ++ [v]) else p)

/-- The five setdefault calls performed for each recognized payload key. -/
def initBuckets (acc : PushResult) (key : String) : PushResult :=
  ⟨setdefault acc.created key, setdefault acc.updated key,
   setdefault acc.deleted key, setdefault acc.errors key,
   setdefault acc.conflicts key⟩

/-- Record one entry's outcome under the payload's original key. -/
def addOutcome (acc : PushResult) (key : String) : EntryOutcome → PushResult
  | .created r => { acc with created := appendAt acc.created key r }
  | .updated r => { acc with updated := appendAt acc.updated key r }
  | .deleted i => { acc with deleted := appendAt acc.deleted key i }
  | .conflict c => { acc with conflicts := appendAt acc.conflicts key c }
  | .error e msg => { acc with errors := appendAt acc.errors key (e, msg) }
  | .nothing => acc

/-- The inner loop over one model's entry list, threading the table. -/
def processEntries (parseTs : String → Option Int) (now : Int) (key : String) :
    PushResult → List SRecord → List SyncEntry → PushResult × List SRecord
  | acc, rows, [] => (acc, rows)
  | acc, rows, e :: es =>
      let step := processEntry parseTs now rows e
      processEntries parseTs now key (addOutcome acc key step.1) step.2 es

/-- Read a model's table (empty when the model has no rows yet). -/
def getTable (db : List (String × List SRecord)) (mk : String) : List SRecord :=
  (db.lookup mk).getD []

/-- Store a model's new table. -/
def setTable (db : List (String × List SRecord)) (mk : String)
    (rows : List SRecord) : List (String × List SRecord) :=
  if db.any (fun p => p.1 == mk) then
    db.map (fun p => if p.1 == mk then (mk, rows) else p)
  else
    db ++ [(mk, rows)]

/-- The outer loop body for one payload item: unrecognized model names are
skipped entirely; recognized ones get their five buckets seeded and their
entries processed (items may be null, normalized by `or []`). -/
def processModelKey (parseTs : String → Option Int) (now : Int)
    (st : PushResult × List (String × List SRecord))
    (kv : String × Option (List SyncEntry)) :
    PushResult × List (String × List SRecord) :=
  let key := kv.1
  let mk := modelKeyOf key
  if mk ∈ modelKeys then
    let acc := initBuckets st.1 key
    let step := processEntries parseTs now key acc (getTable st.2 mk) (kv.2.getD [])
    (step.1, setTable st.2 mk step.2)
  else
    st

/-- push_sync_view: fold the payload's items over the database, producing
the response's five dicts and the new database state. -/
def push_sync_view (parseTs : String → Option Int) (now : Int)
    (db : List (String × List SRecord))
    (payload : List (String × Option (List SyncEntry))) :
    PushResult × List (String × List SRecord) :=
  payload.foldl (processModelKey parseTs now) (emptyResult, db)

end Push

namespace Push

theorem processEntry_update_found (parseTs : String → Option Int) (now : Int)
    (rows : List SRecord) (e : SyncEntry) (i : Nat) (obj : SRecord)
    (haction : e.action.getD "update" = "update")
    (hid : e.data.id = some i) (hi : i ≠ 0)
    (hfind : rows.find? (fun r => r.id == i) = some obj) :
    processEntry parseTs now rows e =
      match obj.updated_at, incomingTs parseTs e.data.updated_at with
      | some st, some it =>
          if it < st then
            (.conflict ⟨i, "server_newer", st, e.data.updated_at⟩, rows)
          else
            applyUpdate now rows i obj e.data
      | some _, none => applyUpdate now rows i obj e.data
      | none, _ => applyUpdate now rows i obj e.data := by
  simp [processEntry, haction, hid, hi, hfind]

theorem processEntry_update_noid (parseTs : String → Option Int) (now : Int)
    (rows : List SRecord) (e : SyncEntry)
    (haction : e.action.getD "update" = "update")
    (hid : e.data.id = none) :
    processEntry parseTs now rows e = (.error e "Missing id for update", rows) := by
  simp [processEntry, haction, hid]

theorem processEntry_update_notfound (parseTs : String → Option Int) (now : Int)
    (rows : List SRecord) (e : SyncEntry) (i : Nat)
    (haction : e.action.getD "update" = "update")
    (hid : e.data.id = some i) (hi : i ≠ 0)
    (hfind : rows.find? (fun r => r.id == i) = none) :
    processEntry parseTs now rows e =
      (.created (mkNew rows now e.data), rows ++ [mkNew rows now e.data]) := by
  simp [processEntry, haction, hid, hi, hfind]

theorem processEntry_delete_found (parseTs : String → Option Int) (now : Int)
    (rows : List SRecord) (e : SyncEntry) (i : Nat)
    (haction : e.action.getD "update" = "delete")
    (hid : e.data.id = some i) (hi : i ≠ 0)
    (hfound : (rows.find? (fun r => r.id == i)).isSome = true) :
    processEntry parseTs now rows e =
      (.deleted i, rows.filter (fun r => !(r.id == i))) := by
  cases hfind : rows.find? (fun r => r.id == i) with
  | none => rw [hfind] at hfound; cases hfound
  | some obj => simp [processEntry, haction, hid, hi, hfind]

/-- C1: for an update entry whose id names an existing record, the conflict
with reason 'server_newer' is reported exactly when the server row has an
updated_at and the client sent a parseable one and the server's is strictly
newer; on conflict the table is returned untouched (server version kept),
and otherwise the client's data is applied to that record as a partial
update (fields merged, updated_at bumped). -/
theorem C1_push_conflict_spec (parseTs : String → Option Int) (now : Int)
    (rows : List SRecord) (e : SyncEntry) (i : Nat) (obj : SRecord)
    (haction : e.action.getD "update" = "update")
    (hid : e.data.id = some i) (hi : i ≠ 0)
    (hfind : rows.find? (fun r => r.id == i) = some obj) :
    (∀ st it, obj.updated_at = some st →
      incomingTs parseTs e.data.updated_at = some it → it < st →
      processEntry parseTs now rows e =
        (.conflict ⟨i, "server_newer", st, e.data.updated_at⟩, rows)) ∧
    ((obj.updated_at = none ∨ incomingTs parseTs e.data.updated_at = none ∨
      (∃ st it, obj.updated_at = some st ∧
        incomingTs parseTs e.data.updated_at = some it ∧ ¬ it < st)) →
      processEntry parseTs now rows e =
        (.updated (mergedRec now obj e.data),
         rows.map (fun r => if r.id == i then mergedRec now obj e.data else r))) ∧
    (∀ c, (processEntry parseTs now rows e).1 = .conflict c →
      ∃ st it, obj.updated_at = some st ∧
        incomingTs parseTs e.data.updated_at = some it ∧ it < st ∧
        c = ⟨i, "server_newer", st, e.data.updated_at⟩ ∧
        (processEntry parseTs now rows e).2 = rows) := by
  have hred := processEntry_update_found parseTs now rows e i obj haction hid hi hfind
  refine ⟨?_, ?_, ?_⟩
  · intro st it hst hit hlt
    rw [hred, hst, hit]
    simp [hlt]
  · intro hcase
    rcases hcase with hst | hit | ⟨st, it, hst, hit, hge⟩
    · rw [hred, hst]
      cases hit2 : incomingTs parseTs e.data.updated_at <;>
        simp [applyUpdate, mergedRec]
    · rw [hred, hit]
      cases hst2 : obj.updated_at <;> simp [applyUpdate, mergedRec]
    · rw [hred, hst, hit]
      simp [hge, applyUpdate, mergedRec]
  · intro c hc
    rw [hred] at hc
    cases hst : obj.updated_at with
    | none =>
        rw [hst] at hc
        cases hit : incomingTs parseTs e.data.updated_at with
        | none =>
            rw [hit] at hc
            simp [applyUpdate] at hc
        | some it =>
            rw [hit] at hc
            simp [applyUpdate] at hc
    | some st =>
        rw [hst] at hc
        cases hit : incomingTs parseTs e.data.updated_at with
        | none =>
            rw [hit] at hc
            simp [applyUpdate] at hc
        | some it =>
            rw [hit] at hc
            by_cases hlt : it < st
            · simp only [hlt, if_true] at hc
              simp at hc
              refine ⟨st, it, rfl, rfl, hlt, hc.symm, ?_⟩
              rw [hred, hst, hit]
              simp [hlt]
            · simp [hlt, applyUpdate] at hc

/-- Concrete data for the push witnesses: one server record with id 1 and
timestamp 100, seen by an update entry carrying timestamp 50. -/
def wRows : List SRecord := [⟨1, some 100, [("score", "70")]⟩]

/-- An update entry for id 1 whose client timestamp parses to 50. -/
def wEntryOld : SyncEntry :=
  ⟨some "update", ⟨some 1, some "t50", [("score", "95")]⟩⟩

/-- The witness parse function: t50 parses to 50, everything else fails. -/
def wPushParse : String → Option Int :=
  fun s => if s = "t50" then some 50 else none

/-- Witness for C1: the stale update entry is reported as a server_newer
conflict and the table is unchanged. -/
theorem C1_witness :
    processEntry wPushParse 200 wRows wEntryOld =
      (.conflict ⟨1, "server_newer", 100, some "t50"⟩, wRows) :=
  (C1_push_conflict_spec wPushParse 200 wRows wEntryOld 1 ⟨1, some 100, [("score", "70")]⟩
    rfl rfl (by decide) (by decide)).1 100 50 rfl (by decide) (by decide)

/-- C10: for an update entry on an existing record whose client updated_at
is absent, empty or unparseable, conflict detection is bypassed entirely:
the write is applied unconditionally even though the server row carries a
timestamp. -/
theorem C10_push_timestampless_update (parseTs : String → Option Int) (now : Int)
    (rows : List SRecord) (e : SyncEntry) (i : Nat) (obj : SRecord)
    (haction : e.action.getD "update" = "update")
    (hid : e.data.id = some i) (hi : i ≠ 0)
    (hfind : rows.find? (fun r => r.id == i) = some obj)
    (hinc : incomingTs parseTs e.data.updated_at = none) :
    processEntry parseTs now rows e =
      (.updated (mergedRec now obj e.data),
       rows.map (fun r => if r.id == i then mergedRec now obj e.data else r)) := by
  have hred := processEntry_update_found parseTs now rows e i obj haction hid hi hfind
  rw [hred, hinc]
  cases hst : obj.updated_at <;> simp [applyUpdate, mergedRec]

/-- An update entry for id 1 with no updated_at at all. -/
def wEntryNoTs : SyncEntry :=
  ⟨some "update", ⟨some 1, none, [("score", "95")]⟩⟩

/-- Witness for C10: the timestamp-less update overwrites the record even
though the server copy has updated_at 100. -/
theorem C10_witness :
    processEntry wPushParse 200 wRows wEntryNoTs =
      (.updated ⟨1, some 200, [("score", "95")]⟩,
       [⟨1, some 200, [("score", "95")]⟩]) := by
  have h := C10_push_timestampless_update wPushParse 200 wRows wEntryNoTs 1
    ⟨1, some 100, [("score", "70")]⟩ rfl rfl (by decide) (by decide) rfl
  rw [h]
  decide

end Push

namespace Push

/-- An update entry that carries no id at all. -/
def wEntryNoId : SyncEntry :=
  ⟨some "update", ⟨none, some "t50", [("score", "50")]⟩⟩

/-- Counterexample to C4 as stated: an update entry with an absent id is
not validated and created under 'created'; the view raises
ValueError('Missing id for update'), caught into 'errors', and the table
is untouched. -/
theorem C4_counterexample :
    processEntry wPushParse 200 wRows wEntryNoId =
      (.error wEntryNoId "Missing id for update", wRows) := by
  decide

/-- C4 amended: the upsert is keyed on a truthy id.  An update entry with
an absent or zero (Python-falsy) id is reported under 'errors'; with a
truthy id matching no record, the data is created under 'created'; with a
truthy id matching a record, that record is partially updated unless a
server_newer conflict is reported; and a delete entry with a truthy id
matching a record deletes it. -/
theorem C4_push_upsert_amended (parseTs : String → Option Int) (now : Int)
    (rows : List SRecord) (e : SyncEntry) (i : Nat) :
    (e.action.getD "update" = "update" → e.data.id = none →
      processEntry parseTs now rows e = (.error e "Missing id for update", rows)) ∧
    (e.action.getD "update" = "update" → e.data.id = some i → i ≠ 0 →
      rows.find? (fun r => r.id == i) = none →
      processEntry parseTs now rows e =
        (.created (mkNew rows now e.data), rows ++ [mkNew rows now e.data])) ∧
    (e.action.getD "update" = "update" → e.data.id = some i → i ≠ 0 →
      ∀ obj, rows.find? (fun r => r.id == i) = some obj →
        (processEntry parseTs now rows e).1 =
            .updated (mergedRec now obj e.data) ∨
        ∃ st, (processEntry parseTs now rows e).1 =
            .conflict ⟨i, "server_newer", st, e.data.updated_at⟩) ∧
    (e.action.getD "update" = "delete" → e.data.id = some i → i ≠ 0 →
      (rows.find? (fun r => r.id == i)).isSome = true →
      processEntry parseTs now rows e =
        (.deleted i, rows.filter (fun r => !(r.id == i)))) ∧
    (e.action.getD "update" = "update" → e.data.id = some 0 →
      processEntry parseTs now rows e = (.error e "Missing id for update", rows)) := by
  refine ⟨?_, ?_, ?_, ?_, ?_⟩
  · intro haction hid
    exact processEntry_update_noid parseTs now rows e haction hid
  · intro haction hid hi hfind
    exact processEntry_update_notfound parseTs now rows e i haction hid hi hfind
  · intro haction hid hi obj hfind
    have hred := processEntry_update_found parseTs now rows e i obj haction hid hi hfind
    rw [hred]
    cases hst : obj.updated_at with
    | none =>
        cases hit : incomingTs parseTs e.data.updated_at <;>
          exact Or.inl (by simp [applyUpdate])
    | some st =>
        cases hit : incomingTs parseTs e.data.updated_at with
        | none => exact Or.inl (by simp [applyUpdate])
        | some it =>
            by_cases hlt : it < st
            · exact Or.inr ⟨st, by simp [hlt]⟩
            · exact Or.inl (by simp [hlt, applyUpdate])
  · intro haction hid hi hfound
    exact processEntry_delete_found parseTs now rows e i haction hid hi hfound
  · intro haction hid
    simp [processEntry, haction, hid]

/-- An update entry whose id 5 matches no server record. -/
def wEntryNewId : SyncEntry :=
  ⟨some "update", ⟨some 5, none, [("score", "50")]⟩⟩

/-- Witness for the amended C4: the id-5 update falls back to create. -/
theorem C4_witness :
    processEntry wPushParse 200 wRows wEntryNewId =
      (.created (mkNew wRows 200 wEntryNewId.data),
       wRows ++ [mkNew wRows 200 wEntryNewId.data]) :=
  (C4_push_upsert_amended wPushParse 200 wRows wEntryNewId 5).2.1
    rfl rfl (by decide) (by decide)

end Push

namespace Push

/-- Whether a payload key names a recognized model after rstrip+lower. -/
def recognized (key : String) : Bool :=
  decide (modelKeyOf key ∈ modelKeys)

theorem lookup_append_single {α : Type} (m : List (String × List α))
    (k k2 : String) :
    ((m ++ [(k, [])]).lookup k2).isSome = ((m.lookup k2).isSome || k2 == k) := by
  induction m with
  | nil => cases h : (k2 == k) <;> simp [List.lookup, h]
  | cons p m ih =>
      obtain ⟨a, b⟩ := p
      by_cases h : (k2 == a) = true
      · simp [List.lookup, h]
      · simp [List.lookup, h, ih]

theorem any_key_eq_lookup_isSome {α : Type} (m : List (String × List α))
    (k : String) :
    m.any (fun p => p.1 == k) = (m.lookup k).isSome := by
  induction m with
  | nil => rfl
  | cons p m ih =>
      obtain ⟨a, b⟩ := p
      by_cases h : a = k
      · subst h
        simp [List.lookup]
      · have h1 : (a == k) = false := by simp [h]
        have h2 : (k == a) = false := by simp [Ne.symm h]
        simp [List.lookup, h1, h2, ih]

theorem setdefault_lookup_isSome {α : Type} (m : List (String × List α))
    (k k2 : String) :
    ((setdefault m k).lookup k2).isSome = ((m.lookup k2).isSome || k2 == k) := by
  unfold setdefault
  by_cases h : m.any (fun p => p.1 == k) = true
  · rw [if_pos h]
    by_cases hk : k2 = k
    · subst hk
      rw [any_key_eq_lookup_isSome] at h
      simp [h]
    · simp [hk]
  · rw [if_neg h]
    exact lookup_append_single m k k2

theorem appendAt_lookup_isSome {α : Type} (m : List (String × List α))
    (k k2 : String) (v : α) :
    ((appendAt m k v).lookup k2).isSome = (m.lookup k2).isSome := by
  induction m with
  | nil => rfl
  | cons p m ih =>
      obtain ⟨a, b⟩ := p
      cases h : (a == k) with
      | true =>
          have h9 : a = k := by simpa using h
          have hstep : appendAt ((a, b) :: m) k v = (a, b ++ [v]) :: appendAt m k v := by
            simp [appendAt, h9]
          rw [hstep]
          cases h2 : (k2 == a) <;> simp [List.lookup, h2, ih]
      | false =>
          have h9 : ¬ a = k := by simpa using h
          have hstep : appendAt ((a, b) :: m) k v = (a, b) :: appendAt m k v := by
            simp [appendAt, h9]
          rw [hstep]
          cases h2 : (k2 == a) <;> simp [List.lookup, h2, ih]

theorem addOutcome_lookup_isSome (acc : PushResult) (key : String)
    (o : EntryOutcome) (k2 : String) :
    (((addOutcome acc key o).created.lookup k2).isSome =
      (acc.created.lookup k2).isSome) ∧
    (((addOutcome acc key o).updated.lookup k2).isSome =
      (acc.updated.lookup k2).isSome) ∧
    (((addOutcome acc key o).deleted.lookup k2).isSome =
      (acc.deleted.lookup k2).isSome) ∧
    (((addOutcome acc key o).errors.lookup k2).isSome =
      (acc.errors.lookup k2).isSome) ∧
    (((addOutcome acc key o).conflicts.lookup k2).isSome =
      (acc.conflicts.lookup k2).isSome) := by
  cases o <;> simp [addOutcome, appendAt_lookup_isSome]

theorem processEntries_lookup_isSome (parseTs : String → Option Int)
    (now : Int) (key : String) :
    ∀ (es : List SyncEntry) (acc : PushResult) (rows : List SRecord)
      (k2 : String),
    (((processEntries parseTs now key acc rows es).1.created.lookup k2).isSome =
      (acc.created.lookup k2).isSome) ∧
    (((processEntries parseTs now key acc rows es).1.updated.lookup k2).isSome =
      (acc.updated.lookup k2).isSome) ∧
    (((processEntries parseTs now key acc rows es).1.deleted.lookup k2).isSome =
      (acc.deleted.lookup k2).isSome) ∧
    (((processEntries parseTs now key acc rows es).1.errors.lookup k2).isSome =
      (acc.errors.lookup k2).isSome) ∧
    (((processEntries parseTs now key acc rows es).1.conflicts.lookup k2).isSome =
      (acc.conflicts.lookup k2).isSome) := by
  intro es
  induction es with
  | nil => intro acc rows k2; exact ⟨rfl, rfl, rfl, rfl, rfl⟩
  | cons e es ih =>
      intro acc rows k2
      have h1 := addOutcome_lookup_isSome acc key
        (processEntry parseTs now rows e).1 k2
      have h2 := ih (addOutcome acc key (processEntry parseTs now rows e).1)
        (processEntry parseTs now rows e).2 k2
      simp only [processEntries]
      exact ⟨h2.1.trans h1.1, h2.2.1.trans h1.2.1, h2.2.2.1.trans h1.2.2.1,
        h2.2.2.2.1.trans h1.2.2.2.1, h2.2.2.2.2.trans h1.2.2.2.2⟩

theorem initBuckets_lookup_isSome (acc : PushResult) (key k2 : String) :
    (((initBuckets acc key).created.lookup k2).isSome =
      ((acc.created.lookup k2).isSome || k2 == key)) ∧
    (((initBuckets acc key).updated.lookup k2).isSome =
      ((acc.updated.lookup k2).isSome || k2 == key)) ∧
    (((initBuckets acc key).deleted.lookup k2).isSome =
      ((acc.deleted.lookup k2).isSome || k2 == key)) ∧
    (((initBuckets acc key).errors.lookup k2).isSome =
      ((acc.errors.lookup k2).isSome || k2 == key)) ∧
    (((initBuckets acc key).conflicts.lookup k2).isSome =
      ((acc.conflicts.lookup k2).isSome || k2 == key)) :=
  ⟨setdefault_lookup_isSome acc.created key k2,
   setdefault_lookup_isSome acc.updated key k2,
   setdefault_lookup_isSome acc.deleted key k2,
   setdefault_lookup_isSome acc.errors key k2,
   setdefault_lookup_isSome acc.conflicts key k2⟩

theorem processModelKey_lookup_isSome (parseTs : String → Option Int)
    (now : Int) (st : PushResult × List (String × List SRecord))
    (kv : String × Option (List SyncEntry)) (k2 : String) :
    (((processModelKey parseTs now st kv).1.created.lookup k2).isSome =
      ((st.1.created.lookup k2).isSome || (k2 == kv.1 && recognized kv.1))) ∧
    (((processModelKey parseTs now st kv).1.updated.lookup k2).isSome =
      ((st.1.updated.lookup k2).isSome || (k2 == kv.1 && recognized kv.1))) ∧
    (((processModelKey parseTs now st kv).1.deleted.lookup k2).isSome =
      ((st.1.deleted.lookup k2).isSome || (k2 == kv.1 && recognized kv.1))) ∧
    (((processModelKey parseTs now st kv).1.errors.lookup k2).isSome =
      ((st.1.errors.lookup k2).isSome || (k2 == kv.1 && recognized kv.1))) ∧
    (((processModelKey parseTs now st kv).1.conflicts.lookup k2).isSome =
      ((st.1.conflicts.lookup k2).isSome || (k2 == kv.1 && recognized kv.1))) := by
  by_cases h : modelKeyOf kv.1 ∈ modelKeys
  · have hrec : recognized kv.1 = true := by simp [recognized, h]
    have hpe := processEntries_lookup_isSome parseTs now kv.1 (kv.2.getD [])
      (initBuckets st.1 kv.1) (getTable st.2 (modelKeyOf kv.1)) k2
    have hib := initBuckets_lookup_isSome st.1 kv.1 k2
    simp only [processModelKey, if_pos h, hrec, Bool.and_true]
    exact ⟨hpe.1.trans hib.1, hpe.2.1.trans hib.2.1, hpe.2.2.1.trans hib.2.2.1,
      hpe.2.2.2.1.trans hib.2.2.2.1, hpe.2.2.2.2.trans hib.2.2.2.2⟩
  · have hrec : recognized kv.1 = false := by simp [recognized, h]
    simp [processModelKey, if_neg h, hrec]

theorem push_fold_lookup_isSome (parseTs : String → Option Int) (now : Int) :
    ∀ (payload : List (String × Option (List SyncEntry)))
      (st : PushResult × List (String × List SRecord)) (k2 : String),
    (((payload.foldl (processModelKey parseTs now) st).1.created.lookup k2).isSome =
      ((st.1.created.lookup k2).isSome ||
        payload.any (fun kv => k2 == kv.1 && recognized kv.1))) ∧
    (((payload.foldl (processModelKey parseTs now) st).1.updated.lookup k2).isSome =
      ((st.1.updated.lookup k2).isSome ||
        payload.any (fun kv => k2 == kv.1 && recognized kv.1))) ∧
    (((payload.foldl (processModelKey parseTs now) st).1.deleted.lookup k2).isSome =
      ((st.1.deleted.lookup k2).isSome ||
        payload.any (fun kv => k2 == kv.1 && recognized kv.1))) ∧
    (((payload.foldl (processModelKey parseTs now) st).1.errors.lookup k2).isSome =
      ((st.1.errors.lookup k2).isSome ||
        payload.any (fun kv => k2 == kv.1 && recognized kv.1))) ∧
    (((payload.foldl (processModelKey parseTs now) st).1.conflicts.lookup k2).isSome =
      ((st.1.conflicts.lookup k2).isSome ||
        payload.any (fun kv => k2 == kv.1 && recognized kv.1))) := by
  intro payload
  induction payload with
  | nil => intro st k2; simp
  | cons kv payload ih =>
      intro st k2
      have h1 := processModelKey_lookup_isSome parseTs now st kv k2
      have h2 := ih (processModelKey parseTs now st kv) k2
      simp only [List.foldl_cons, List.any_cons]
      refine ⟨?_, ?_, ?_, ?_, ?_⟩
      · rw [h2.1, h1.1, Bool.or_assoc, Bool.or_comm (k2 == kv.1 && recognized kv.1)]
      · rw [h2.2.1, h1.2.1, Bool.or_assoc, Bool.or_comm (k2 == kv.1 && recognized kv.1)]
      · rw [h2.2.2.1, h1.2.2.1, Bool.or_assoc, Bool.or_comm (k2 == kv.1 && recognized kv.1)]
      · rw [h2.2.2.2.1, h1.2.2.2.1, Bool.or_assoc, Bool.or_comm (k2 == kv.1 && recognized kv.1)]
      · rw [h2.2.2.2.2, h1.2.2.2.2, Bool.or_assoc, Bool.or_comm (k2 == kv.1 && recognized kv.1)]

end Push

namespace Push

theorem any_recognized_iff (payload : List (String × Option (List SyncEntry)))
    (key : String) :
    (payload.any (fun kv => key == kv.1 && recognized kv.1) = true) ↔
      (∃ items, (key, items) ∈ payload ∧ modelKeyOf key ∈ modelKeys) := by
  rw [List.any_eq_true]
  constructor
  · rintro ⟨kv, hmem, hpred⟩
    have hpred2 : key = kv.1 ∧ recognized kv.1 = true := by simpa using hpred
    obtain ⟨hk9, hrec⟩ := hpred2
    refine ⟨kv.2, ?_, ?_⟩
    · rw [hk9]
      simpa using hmem
    · rw [hk9]
      simpa [recognized] using hrec
  · rintro ⟨items, hmem, hrec⟩
    exact ⟨(key, items), hmem, by simp [recognized, hrec]⟩

/-- C5: the push_sync_view response always carries the five dicts created,
updated, deleted, errors and conflicts (the fields of PushResult), and
each of the five maps a payload model name to a list exactly when that
name occurs in the payload and resolves, via rstrip of trailing s plus
lowercasing, to a recognized model; unrecognized names are skipped and
appear in none of the five. -/
theorem C5_push_response_keys (parseTs : String → Option Int) (now : Int)
    (db : List (String × List SRecord))
    (payload : List (String × Option (List SyncEntry))) (key : String) :
    ((((push_sync_view parseTs now db payload).1.created.lookup key).isSome = true) ↔
      (∃ items, (key, items) ∈ payload ∧ modelKeyOf key ∈ modelKeys)) ∧
    ((((push_sync_view parseTs now db payload).1.updated.lookup key).isSome = true) ↔
      (∃ items, (key, items) ∈ payload ∧ modelKeyOf key ∈ modelKeys)) ∧
    ((((push_sync_view parseTs now db payload).1.deleted.lookup key).isSome = true) ↔
      (∃ items, (key, items) ∈ payload ∧ modelKeyOf key ∈ modelKeys)) ∧
    ((((push_sync_view parseTs now db payload).1.errors.lookup key).isSome = true) ↔
      (∃ items, (key, items) ∈ payload ∧ modelKeyOf key ∈ modelKeys)) ∧
    ((((push_sync_view parseTs now db payload).1.conflicts.lookup key).isSome = true) ↔
      (∃ items, (key, items) ∈ payload ∧ modelKeyOf key ∈ modelKeys)) := by
  have hfold := push_fold_lookup_isSome parseTs now payload (emptyResult, db) key
  have hany := any_recognized_iff payload key
  have hempty : ∀ (β : Type) (x : List (String × List β)), x = [] →
      (x.lookup key).isSome = false := by
    intro β x hx
    rw [hx]
    rfl
  unfold push_sync_view
  refine ⟨?_, ?_, ?_, ?_, ?_⟩
  · rw [hfold.1, hempty _ emptyResult.created rfl, Bool.false_or]
    exact hany
  · rw [hfold.2.1, hempty _ emptyResult.updated rfl, Bool.false_or]
    exact hany
  · rw [hfold.2.2.1, hempty _ emptyResult.deleted rfl, Bool.false_or]
    exact hany
  · rw [hfold.2.2.2.1, hempty _ emptyResult.errors rfl, Bool.false_or]
    exact hany
  · rw [hfold.2.2.2.2, hempty _ emptyResult.conflicts rfl, Bool.false_or]
    exact hany

/-- A payload with one recognized plural key and one unrecognized key. -/
def wPayload : List (String × Option (List SyncEntry)) :=
  [("grades", some [wEntryNoTs]), ("bogus", some [])]

/-- Witness for C5: the recognized name grades owns a bucket in the
updated dict, while the skipped name bogus owns none. -/
theorem C5_witness :
    (((push_sync_view wPushParse 200 [("grade", wRows)] wPayload).1.updated.lookup
        "grades").isSome = true) ∧
    (((push_sync_view wPushParse 200 [("grade", wRows)] wPayload).1.updated.lookup
        "bogus").isSome = false) := by
  constructor
  · exact (C5_push_response_keys wPushParse 200 [("grade", wRows)] wPayload
      "grades").2.1.mpr ⟨some [wEntryNoTs], by decide, by decide⟩
  · have h := (C5_push_response_keys wPushParse 200 [("grade", wRows)] wPayload
      "bogus").2.1
    by_contra hne
    have htrue : ((push_sync_view wPushParse 200 [("grade", wRows)] wPayload).1.updated.lookup
        "bogus").isSome = true := by
      cases hb : ((push_sync_view wPushParse 200 [("grade", wRows)] wPayload).1.updated.lookup
        "bogus").isSome
      · exact absurd hb hne
      · rfl
    obtain ⟨items, hmem, hrec⟩ := h.mp htrue
    revert hrec
    decide

end Push
